import Mathlib

/-!
Shallow embedding of the `luir` tree-walking Lua interpreter
(src/lex.rs, src/parser.rs, src/ast.rs, src/vm.rs) and proofs about it.

Modelling conventions:
* Rust `f64` numbers are modelled as `ℚ` (`Rat`).  Every numeric literal the
  claims exercise is a small integer, on which `f64` arithmetic and ordering
  agree exactly with `ℚ`; IEEE rounding, NaN and infinities are not exercised.
* Rust `HashMap<String, EvalValue>` is modelled as an association list with
  insert-replaces-existing-key semantics (`mapInsert` / `mapGet`); the claims
  never depend on hash iteration order.
* `Result<T, String>` is `Except String T`.  Rust panics (`unwrap` /
  `expect` on `None`) are modelled as `Except.error` values whose message
  starts with `panic:`; no claim reaches them from the real initial VM.
* Diagnostic strings are kept, but `format!` interpolation of payloads is
  dropped: each Rust message is represented by its constant prefix.
* Loops (`while`, `for`, the recursive-descent parser and the lexer scan
  loop) are driven by an explicit fuel parameter; `none` means the fuel ran
  out, `some r` is the result the Rust code produces.
* The one native function (`print` from vm.rs) writes to stdout; its output
  is not modelled, only its returned value / error, which is all the claims
  need.
-/

/-! ## Runtime values (src/ast.rs, `EvalValue`) -/

/-- Identifier for a host native function.  The only native installed by
`VirtualMachine::new` is `print`. -/
inductive NativeId where
  | print
deriving DecidableEq, Repr

/-- `EvalValue` from src/ast.rs.  The constructor order matters: the Rust
enum derives `PartialOrd`, which orders values of distinct variants by
variant declaration order. -/
inductive EvalValue where
  | Number : ℚ → EvalValue
  | Boolean : Bool → EvalValue
  | String : String → EvalValue
  | Nil : EvalValue
  | NativeFunction : NativeId → EvalValue
deriving DecidableEq, Repr

/-- `EvalValue::is_true` from src/ast.rs:
`matches!(self, EvalValue::Nil | EvalValue::Boolean(true))`. -/
def EvalValue.is_true : EvalValue → Bool
  | .Nil => true
  | .Boolean true => true
  | _ => false

/-- Discriminant rank of an `EvalValue` variant, in Rust declaration order. -/
def EvalValue.rank : EvalValue → Nat
  | .Number _ => 0
  | .Boolean _ => 1
  | .String _ => 2
  | .Nil => 3
  | .NativeFunction _ => 4

/-- Is the value a `Number`? -/
def EvalValue.isNumber : EvalValue → Bool
  | .Number _ => true
  | _ => false

/-- Is the value a `NativeFunction`? -/
def EvalValue.isNativeFunction : EvalValue → Bool
  | .NativeFunction _ => true
  | _ => false

/-- The derived `PartialOrd::partial_cmp` on `EvalValue`: values of the same
variant compare by payload, values of distinct variants compare by variant
declaration order.  (`f64` payloads would yield `none` on NaN; NaN is not
representable in the `ℚ` model and not exercised by any claim.) -/
def evalCmpOpt : EvalValue → EvalValue → Option Ordering
  | .Number a, .Number b =>
      some (if a < b then .lt else if a = b then .eq else .gt)
  | .Boolean a, .Boolean b =>
      some (if a = b then .eq else if a = false then .lt else .gt)
  | .String a, .String b =>
      some (if a = b then .eq else if a < b then .lt else .gt)
  | .Nil, .Nil => some .eq
  | .NativeFunction _, .NativeFunction _ => some .eq
  | a, b => some (if a.rank < b.rank then .lt else .gt)

/-- The `<=` operator that `#[derive(PartialOrd)]` gives `EvalValue`:
true iff `partial_cmp` returns `Less` or `Equal`. -/
def evalLe (a b : EvalValue) : Bool :=
  match evalCmpOpt a b with
  | some .lt => true
  | some .eq => true
  | _ => false

/-- The binary-operator dispatch of `Expression::execute`
(src/ast.rs, `BinaryExpression` arm): a nested match on the operand pair and
then on the operator string. -/
def evalBinOp (lhs : EvalValue) (op : String) (rhs : EvalValue) :
    Except String EvalValue :=
  match lhs, rhs with
  | .Number l, .Number r =>
    match op with
    | "+" => .ok (.Number (l + r))
    | "-" => .ok (.Number (l - r))
    | "*" => .ok (.Number (l * r))
    | "/" => .ok (.Number (l / r))
    | "<" => .ok (.Boolean (decide (l < r)))
    | ">" => .ok (.Boolean (decide (l > r)))
    | "<=" => .ok (.Boolean (decide (l ≤ r)))
    | ">=" => .ok (.Boolean (decide (l ≥ r)))
    | "==" => .ok (.Boolean (decide (l = r)))
    | "~=" => .ok (.Boolean (decide (l ≠ r)))
    | _ => .error "Unknown operator for numbers"
  | .String l, .String r =>
    match op with
    | ".." => .ok (.String (l ++ r))
    | "==" => .ok (.Boolean (decide (l = r)))
    | "~=" => .ok (.Boolean (decide (l ≠ r)))
    | _ => .error "Invalid operator for strings"
  | .Boolean l, .Boolean r =>
    match op with
    | "==" => .ok (.Boolean (decide (l = r)))
    | "~=" => .ok (.Boolean (decide (l ≠ r)))
    | _ => .error "Invalid operator for booleans"
  | _, _ => .error "Invalid expression"

/-- The `print` native installed by `VirtualMachine::new` (src/vm.rs):
walks the arguments in order; a `NativeFunction` argument is rejected with
`Invalid argument`, every other variant is printed; returns `Nil`.
(The stdout text itself is not modelled.) -/
def runNative : NativeId → List EvalValue → Except String EvalValue
  | .print, args =>
      if args.any (fun a => a.isNativeFunction) then .error "Invalid argument"
      else .ok .Nil

/-! ## The virtual machine (src/vm.rs) -/

/-- One scope frame: the `HashMap<String, EvalValue>` of src/vm.rs, as an
association list with unique keys. -/
abbrev ValueMap := List (String × EvalValue)

/-- `HashMap::get` (plus the `clone` done by `lookup_variable`). -/
def mapGet (name : String) : ValueMap → Option EvalValue
  | [] => none
  | (k, v) :: rest => if k = name then some v else mapGet name rest

/-- `HashMap::insert`: replaces the binding if the key is present, otherwise
adds it. -/
def mapInsert (name : String) (v : EvalValue) : ValueMap → ValueMap
  | [] => [(name, v)]
  | (k, w) :: rest =>
      if k = name then (name, v) :: rest else (k, w) :: mapInsert name v rest

/-- `HashMap::contains_key`. -/
def mapContains (name : String) (m : ValueMap) : Bool :=
  (mapGet name m).isSome

/-- `VirtualMachine` from src/vm.rs.  `scopes_stack` is ordered with the
innermost (most recently pushed) frame FIRST; the Rust `Vec` keeps it last.
So Rust `push`/`pop` are cons/tail here, Rust `.iter().rev()` is plain
head-to-tail order, and the global frame (Rust index 0) is the LAST list
element. -/
structure VirtualMachine where
  scopes_stack : List ValueMap
deriving DecidableEq, Repr

/-- `VirtualMachine::enter_scope`: push an empty frame. -/
def VirtualMachine.enter_scope (vm : VirtualMachine) : VirtualMachine :=
  ⟨[] :: vm.scopes_stack⟩

/-- `VirtualMachine::exit_scope`: `Vec::pop` (a no-op on an empty stack). -/
def VirtualMachine.exit_scope (vm : VirtualMachine) : VirtualMachine :=
  ⟨vm.scopes_stack.tail⟩

/-- `VirtualMachine::declare_variable`: insert into the topmost frame.
Rust `expect`s a frame; the empty-stack case (a Rust panic) is modelled as a
no-op and is never reached from the real initial VM. -/
def VirtualMachine.declare_variable (vm : VirtualMachine) (name : String)
    (v : EvalValue) : VirtualMachine :=
  match vm.scopes_stack with
  | [] => ⟨[]⟩
  | frame :: rest => ⟨mapInsert name v frame :: rest⟩

/-- `VirtualMachine::lookup_variable`: scan frames from the innermost
outwards, returning the first binding found. -/
def lookupStack (name : String) : List ValueMap → Option EvalValue
  | [] => none
  | frame :: rest =>
    match mapGet name frame with
    | some v => some v
    | none => lookupStack name rest

/-- `VirtualMachine::lookup_variable` on the whole machine. -/
def VirtualMachine.lookup_variable (vm : VirtualMachine) (name : String) :
    Option EvalValue :=
  lookupStack name vm.scopes_stack

/-- `VirtualMachine::change_or_create_value` on the frame list: update the
innermost frame that contains `name`; if none does, insert into the global
(last) frame.  (On an empty stack the Rust code panics on `unwrap`; the
claims only use non-empty stacks.) -/
def changeOrCreate (name : String) (v : EvalValue) : List ValueMap → List ValueMap
  | [] => []
  | [frame] => [mapInsert name v frame]
  | frame :: next :: rest =>
      if mapContains name frame then mapInsert name v frame :: next :: rest
      else frame :: changeOrCreate name v (next :: rest)

/-- `VirtualMachine::change_or_create_value` on the whole machine. -/
def VirtualMachine.change_or_create_value (vm : VirtualMachine) (name : String)
    (v : EvalValue) : VirtualMachine :=
  ⟨changeOrCreate name v vm.scopes_stack⟩

/-- The machine built by `VirtualMachine::new`: one global frame holding the
`print` native. -/
def VirtualMachine.new : VirtualMachine :=
  ⟨[[("print", EvalValue.NativeFunction .print)]]⟩

/-! ## Expressions and their evaluation (src/ast.rs) -/

/-- `Expression` from src/ast.rs. -/
inductive Expression where
  | NumberLiteral : ℚ → Expression
  | BooleanLiteral : Bool → Expression
  | StringLiteral : String → Expression
  | NilLiteral : Expression
  | IdentifierExpression : String → Expression
  | BinaryExpression : Expression → String → Expression → Expression
  | FunctionCall : String → List Expression → Expression

mutual

/-- `Expression::execute` from src/ast.rs.  The Rust function takes
`&mut VirtualMachine`; the returned machine makes the state threading
explicit (each step returns the machine exactly as the Rust operation it
mirrors leaves it). -/
def Expression.execute : Expression → VirtualMachine →
    Except String EvalValue × VirtualMachine
  | .NumberLiteral n, vm => (.ok (.Number n), vm)
  | .BooleanLiteral b, vm => (.ok (.Boolean b), vm)
  | .StringLiteral s, vm => (.ok (.String s), vm)
  | .NilLiteral, vm => (.ok .Nil, vm)
  | .IdentifierExpression ident, vm =>
      (.ok ((vm.lookup_variable ident).getD .Nil), vm)
  | .BinaryExpression lhs op rhs, vm =>
    match lhs.execute vm with
    | (.error e, vm1) => (.error e, vm1)
    | (.ok lv, vm1) =>
      match rhs.execute vm1 with
      | (.error e, vm2) => (.error e, vm2)
      | (.ok rv, vm2) => (evalBinOp lv op rv, vm2)
  | .FunctionCall name argExprs, vm =>
    match execArgs argExprs vm with
    | (.error e, vm1) => (.error e, vm1)
    | (.ok args, vm1) =>
      match vm1.lookup_variable name with
      | some (.NativeFunction f) => (runNative f args, vm1)
      | _ => (.error "Function not found", vm1)

/-- The argument-evaluation loop of the `FunctionCall` arm: evaluate
arguments left to right, stopping at the first error (Rust `?`). -/
def execArgs : List Expression → VirtualMachine →
    Except String (List EvalValue) × VirtualMachine
  | [], vm => (.ok [], vm)
  | e :: rest, vm =>
    match e.execute vm with
    | (.error msg, vm1) => (.error msg, vm1)
    | (.ok v, vm1) =>
      match execArgs rest vm1 with
      | (.error msg, vm2) => (.error msg, vm2)
      | (.ok vs, vm2) => (.ok (v :: vs), vm2)

end

/-! ## Statements and their execution (src/ast.rs) -/

/-- `Statement` from src/ast.rs. -/
inductive Statement where
  | LocalVariableDeclaration : String → Expression → Statement
  | AssigmentStatement : String → Expression → Statement
  | WhileLoop : Expression → List Statement → Statement
  | ForLoop : String → Expression → Expression → Expression →
      List Statement → Statement
  | IfStatement : Expression → List Statement →
      List (Expression × List Statement) → Option (List Statement) → Statement
  | ExpressionStatement : Expression → Statement

mutual

/-- `Statement::execute` from src/ast.rs, driven by fuel (`none` = fuel ran
out).  Scope pushes/pops are placed exactly where the Rust code has them; in
particular `enter_scope`d frames are NOT popped on `Err` propagation, and the
taken-elseif arm `return Ok(())`s without its `exit_scope`. -/
def execStmt : Nat → Statement → VirtualMachine →
    Option (Except String Unit × VirtualMachine)
  | 0, _, _ => none
  | fuel + 1, stmt, vm =>
    match stmt with
    | .LocalVariableDeclaration name e =>
      match e.execute vm with
      | (.error msg, vm1) => some (.error msg, vm1)
      | (.ok v, vm1) => some (.ok (), vm1.declare_variable name v)
    | .AssigmentStatement name e =>
      match e.execute vm with
      | (.error msg, vm1) => some (.error msg, vm1)
      | (.ok v, vm1) => some (.ok (), vm1.change_or_create_value name v)
    | .WhileLoop cond block =>
      match execWhile fuel cond block vm.enter_scope with
      | none => none
      | some (.error msg, vm1) => some (.error msg, vm1)
      | some (.ok _, vm1) => some (.ok (), vm1.exit_scope)
    | .ForLoop iter startE endE stepE block =>
      let vm1 := vm.enter_scope
      match startE.execute vm1 with
      | (.error msg, vm2) => some (.error msg, vm2)
      | (.ok sv, vm2) =>
        let vm3 := vm2.declare_variable iter sv
        match stepE.execute vm3 with
        | (.error msg, vm4) => some (.error msg, vm4)
        | (.ok (.Number step), vm4) =>
          match execForLoop fuel iter endE step block vm4 with
          | none => none
          | some (.error msg, vm5) => some (.error msg, vm5)
          | some (.ok _, vm5) => some (.ok (), vm5.exit_scope)
        | (.ok _, vm4) => some (.error "Invalid step value", vm4)
    | .IfStatement cond block elseifs elseBlock =>
      let vm1 := vm.enter_scope
      match cond.execute vm1 with
      | (.error msg, vm2) => some (.error msg, vm2)
      | (.ok cv, vm2) =>
        if cv.is_true then
          match execBlock fuel block vm2 with
          | none => none
          | some (.error msg, vm3) => some (.error msg, vm3)
          | some (.ok _, vm3) => some (.ok (), vm3.exit_scope)
        else execElseifs fuel elseifs elseBlock vm2
    | .ExpressionStatement e =>
      match e.execute vm with
      | (.error msg, vm1) => some (.error msg, vm1)
      | (.ok _, vm1) => some (.ok (), vm1)

/-- The statement sequence inside a block: statements run in order, the
first error aborts (Rust `?`). -/
def execBlock : Nat → List Statement → VirtualMachine →
    Option (Except String Unit × VirtualMachine)
  | 0, _, _ => none
  | _ + 1, [], vm => some (.ok (), vm)
  | fuel + 1, s :: rest, vm =>
    match execStmt fuel s vm with
    | none => none
    | some (.error msg, vm1) => some (.error msg, vm1)
    | some (.ok _, vm1) => execBlock fuel rest vm1

/-- The `while` loop of the `WhileLoop` arm (condition re-evaluated each
iteration, body between). -/
def execWhile : Nat → Expression → List Statement → VirtualMachine →
    Option (Except String Unit × VirtualMachine)
  | 0, _, _, _ => none
  | fuel + 1, cond, block, vm =>
    match cond.execute vm with
    | (.error msg, vm1) => some (.error msg, vm1)
    | (.ok cv, vm1) =>
      if cv.is_true then
        match execBlock fuel block vm1 with
        | none => none
        | some (.error msg, vm2) => some (.error msg, vm2)
        | some (.ok _, vm2) => execWhile fuel cond block vm2
      else some (.ok (), vm1)

/-- The `while` loop of the `ForLoop` arm: look up the iterator (Rust
`unwrap`s, a panic when absent), evaluate the end expression, compare with
the derived `<=`, run the body, then add the step to the iterator via
`change_or_create_value`. -/
def execForLoop : Nat → String → Expression → ℚ → List Statement →
    VirtualMachine → Option (Except String Unit × VirtualMachine)
  | 0, _, _, _, _, _ => none
  | fuel + 1, iter, endE, step, block, vm =>
    match vm.lookup_variable iter with
    | none => some (.error "panic: unwrap on None", vm)
    | some iterV =>
      match endE.execute vm with
      | (.error msg, vm1) => some (.error msg, vm1)
      | (.ok endV, vm1) =>
        if evalLe iterV endV then
          match execBlock fuel block vm1 with
          | none => none
          | some (.error msg, vm2) => some (.error msg, vm2)
          | some (.ok _, vm2) =>
            match vm2.lookup_variable iter with
            | some (.Number n) =>
              execForLoop fuel iter endE step block
                (vm2.change_or_create_value iter (.Number (n + step)))
            | _ => some (.error "Invalid iterator value", vm2)
        else some (.ok (), vm1)

/-- The elseif chain of the `IfStatement` arm.  A taken elseif branch ends
with Rust `return Ok(())`, skipping the `exit_scope` at the end of the arm;
the fall-through path (no elseif taken) runs the else block if present and
then pops the scope. -/
def execElseifs : Nat → List (Expression × List Statement) →
    Option (List Statement) → VirtualMachine →
    Option (Except String Unit × VirtualMachine)
  | 0, _, _, _ => none
  | fuel + 1, [], elseBlock, vm =>
    match elseBlock with
    | none => some (.ok (), vm.exit_scope)
    | some block =>
      match execBlock fuel block vm with
      | none => none
      | some (.error msg, vm1) => some (.error msg, vm1)
      | some (.ok _, vm1) => some (.ok (), vm1.exit_scope)
  | fuel + 1, (cond, block) :: rest, elseBlock, vm =>
    match cond.execute vm with
    | (.error msg, vm1) => some (.error msg, vm1)
    | (.ok cv, vm1) =>
      if cv.is_true then
        match execBlock fuel block vm1 with
        | none => none
        | some (.error msg, vm2) => some (.error msg, vm2)
        | some (.ok _, vm2) => some (.ok (), vm2)
      else execElseifs fuel rest elseBlock vm1

end

/-! ## The lexer (src/lex.rs) -/

/-- `LiteralType` from src/lex.rs. -/
inductive LiteralType where
  | number : ℚ → LiteralType
  | boolean : Bool → LiteralType
  | string : String → LiteralType
  | nil : LiteralType
deriving DecidableEq, Repr

/-- `Token` from src/lex.rs.  Keyword variants carry a `Kw` suffix because
their Rust names are Lean keywords.  Note: the enum has no brace or bracket
variants. -/
inductive Token where
  | localKw
  | identifier : String → Token
  | literal : LiteralType → Token
  | plus
  | minus
  | asterisk
  | slash
  | leftParen
  | rightParen
  | assigment
  | dot
  | comma
  | equal
  | notEqual
  | lessThan
  | lessThanOrEqual
  | greaterThan
  | greaterThanOrEqual
  | concatanation
  | ifKw
  | thenKw
  | elseKw
  | elseifKw
  | endKw
  | whileKw
  | forKw
  | doKw
deriving DecidableEq, Repr

/-- `Lexer::consume_while`: the consumed prefix and the rest.  (The Rust
lexer holds `current` plus a `Chars` iterator; here the whole remaining
input is one list.) -/
def consumeWhile (test : Char → Bool) : List Char → List Char × List Char
  | [] => ([], [])
  | c :: rest =>
      if test c then
        let (taken, rem) := consumeWhile test rest
        (c :: taken, rem)
      else ([], c :: rest)

/-- `char::is_whitespace` restricted to the ASCII whitespace the claims use
(the Rust predicate also accepts other Unicode whitespace). -/
def isWhiteChar (c : Char) : Bool :=
  c = ' ' || c = '\t' || c = '\n' || c = '\r'

/-- The identifier-continuation test of `consume_identifier_or_keyword`:
`c.is_alphanumeric() || c == '_'` (Unicode alphanumerics beyond ASCII are
not exercised by the claims). -/
def isIdentChar (c : Char) : Bool :=
  c.isAlphanum || c = '_'

/-- The keyword table of `consume_identifier_or_keyword`. -/
def keywordOrIdent (word : String) : Token :=
  match word with
  | "local" => .localKw
  | "nil" => .literal .nil
  | "true" => .literal (.boolean true)
  | "false" => .literal (.boolean false)
  | "if" => .ifKw
  | "then" => .thenKw
  | "else" => .elseKw
  | "elseif" => .elseifKw
  | "end" => .endKw
  | "while" => .whileKw
  | "for" => .forKw
  | "do" => .doKw
  | _ => .identifier word

/-- Digits-only string to its value. -/
def digitsToNat : List Char → Nat
  | [] => 0
  | c :: rest => digitsToNat rest + c.toNat % 48 * 10 ^ rest.length

/-- The `f64` parse in `consume_number`, on the digit-and-dot strings the
scanner can hand it: an optional single dot with digits around it (either
side may be empty, but `consume_number` always starts with a digit).
Multiple dots (or a parse of just `.`) fail, as Rust `str::parse` does.
The value is exact in `ℚ` (Rust rounds to the nearest `f64`; the claims
only use small integers, where the two agree). -/
def parseNumChars (cs : List Char) : Option ℚ :=
  let intPart := (consumeWhile Char.isDigit cs).1
  let rest := (consumeWhile Char.isDigit cs).2
  match rest with
  | [] => if intPart.isEmpty then none else some (digitsToNat intPart)
  | '.' :: fracCs =>
      if fracCs.all Char.isDigit then
        if intPart.isEmpty && fracCs.isEmpty then none
        else some ((digitsToNat intPart : ℚ) +
          (digitsToNat fracCs : ℚ) / (10 ^ fracCs.length : ℚ))
      else none
  | _ => none

/-- The scan loop of `Lexer::tokenize`, one fuel unit per iteration of the
Rust `while let Some(c) = self.current`.  The match arms appear in source
order; two-character operators peek one character ahead exactly as the Rust
`self.input.clone().next()` does. -/
def tokenizeLoop : Nat → List Char → List Token →
    Option (Except String (List Token))
  | 0, _, _ => none
  | _ + 1, [], acc => some (.ok acc.reverse)
  | fuel + 1, c :: rest, acc =>
    if c = '+' then tokenizeLoop fuel rest (.plus :: acc)
    else if c = '-' then tokenizeLoop fuel rest (.minus :: acc)
    else if c = '*' then tokenizeLoop fuel rest (.asterisk :: acc)
    else if c = '/' then tokenizeLoop fuel rest (.slash :: acc)
    else if c = '(' then tokenizeLoop fuel rest (.leftParen :: acc)
    else if c = ')' then tokenizeLoop fuel rest (.rightParen :: acc)
    else if c = '<' then
      if rest.head? = some '=' then tokenizeLoop fuel rest.tail (.lessThanOrEqual :: acc)
      else tokenizeLoop fuel rest (.lessThan :: acc)
    else if c = '>' then
      if rest.head? = some '=' then tokenizeLoop fuel rest.tail (.greaterThanOrEqual :: acc)
      else tokenizeLoop fuel rest (.greaterThan :: acc)
    else if c = '=' then
      if rest.head? = some '=' then tokenizeLoop fuel rest.tail (.equal :: acc)
      else tokenizeLoop fuel rest (.assigment :: acc)
    else if c = '~' then
      if rest.head? = some '=' then tokenizeLoop fuel rest.tail (.notEqual :: acc)
      else some (.error "Unexpected char after ~ expected =")
    else if c = '.' then
      if rest.head? = some '.' then tokenizeLoop fuel rest.tail (.concatanation :: acc)
      else tokenizeLoop fuel rest (.dot :: acc)
    else if c = ',' then tokenizeLoop fuel rest (.comma :: acc)
    else if isWhiteChar c then
      tokenizeLoop fuel (consumeWhile isWhiteChar (c :: rest)).2 acc
    else if c.isDigit then
      let (numCs, rem) := consumeWhile (fun d => d.isDigit || d = '.') (c :: rest)
      match parseNumChars numCs with
      | some q => tokenizeLoop fuel rem (.literal (.number q) :: acc)
      | none => some (.error "Number conversion error")
    else if c.isAlpha then
      let (word, rem) := consumeWhile isIdentChar (c :: rest)
      tokenizeLoop fuel rem (keywordOrIdent (String.mk word) :: acc)
    else if c = '"' then
      let (strCs, rem) := consumeWhile (fun d => d ≠ '"') rest
      tokenizeLoop fuel rem.tail (.literal (.string (String.mk strCs)) :: acc)
    else some (.error "Unexpected character")

/-- `Lexer::tokenize`: leading whitespace is consumed once before the scan
loop (`self.consume_whitespace()` in the Rust code). -/
def tokenize (fuel : Nat) (input : List Char) :
    Option (Except String (List Token)) :=
  tokenizeLoop fuel (consumeWhile isWhiteChar input).2 []

/-! ## The parser (src/parser.rs)

The Rust parser consumes from a shared `Peekable` token iterator, so a
FAILED sub-parse leaves the tokens it consumed gone.  Every parsing
function therefore returns the remaining token list alongside the result,
on the error path too.  Arms of `parse_single_statement` and
`parse_4_level_expression` that mention token variants absent from the
`Token` enum of src/lex.rs (`Function`, `Return`, `Repeat`, `LeftBracket`,
…) are unrepresentable on this token type and are omitted; no token list
can reach them. -/

/-- Result of a parsing function: `none` = out of fuel, otherwise the Rust
result paired with the tokens left in the cursor. -/
abbrev ParseRes (α : Type) := Option (Except String α × List Token)

/-- The comparison / equality band of `parse_expression` (level 1):
token-to-operator-string table from the `create_binary_expression!`
invocation. -/
def levelOps1 : Token → Option String
  | .notEqual => some "~="
  | .equal => some "=="
  | .lessThan => some "<"
  | .lessThanOrEqual => some "<="
  | .greaterThan => some ">"
  | .greaterThanOrEqual => some ">="
  | _ => none

/-- The additive band of `parse_2_level_expression`. -/
def levelOps2 : Token → Option String
  | .plus => some "+"
  | .minus => some "-"
  | _ => none

/-- The multiplicative band of `parse_3_level_expression`. -/
def levelOps3 : Token → Option String
  | .asterisk => some "*"
  | .slash => some "/"
  | _ => none

/-- The end of the call arm: `tokens.peek()` must be `RightParen` (a failed
peek does NOT consume), then it is consumed and the call is built. -/
def finishCall (name : String) (args : List Expression) (toks : List Token) :
    ParseRes Expression :=
  if toks.head? = some .rightParen then
    some (.ok (.FunctionCall name args), toks.tail)
  else some (.error "Expected closing paren", toks)

mutual

/-- `Parser::parse_expression`: parse a level-2 expression, then fold the
comparison-band tail (`create_binary_expression!`). -/
def parseExpression : Nat → List Token → ParseRes Expression
  | 0, _ => none
  | fuel + 1, toks =>
    match parse2Level fuel toks with
    | none => none
    | some (.error e, toks1) => some (.error e, toks1)
    | some (.ok left, toks1) => chainLoop1 fuel left toks1

/-- The `while let Some(token) = tokens.peek()` loop of
`create_binary_expression!` at the comparison band. -/
def chainLoop1 : Nat → Expression → List Token → ParseRes Expression
  | 0, _, _ => none
  | fuel + 1, left, toks =>
    match toks.head? with
    | none => some (.ok left, toks)
    | some t =>
      match levelOps1 t with
      | none => some (.ok left, toks)
      | some opStr =>
        match parse2Level fuel toks.tail with
        | none => none
        | some (.error e, toks1) => some (.error e, toks1)
        | some (.ok right, toks1) =>
            chainLoop1 fuel (.BinaryExpression left opStr right) toks1

/-- `Parser::parse_2_level_expression` (additive band). -/
def parse2Level : Nat → List Token → ParseRes Expression
  | 0, _ => none
  | fuel + 1, toks =>
    match parse3Level fuel toks with
    | none => none
    | some (.error e, toks1) => some (.error e, toks1)
    | some (.ok left, toks1) => chainLoop2 fuel left toks1

/-- The binary tail loop at the additive band. -/
def chainLoop2 : Nat → Expression → List Token → ParseRes Expression
  | 0, _, _ => none
  | fuel + 1, left, toks =>
    match toks.head? with
    | none => some (.ok left, toks)
    | some t =>
      match levelOps2 t with
      | none => some (.ok left, toks)
      | some opStr =>
        match parse3Level fuel toks.tail with
        | none => none
        | some (.error e, toks1) => some (.error e, toks1)
        | some (.ok right, toks1) =>
            chainLoop2 fuel (.BinaryExpression left opStr right) toks1

/-- `Parser::parse_3_level_expression` (multiplicative band). -/
def parse3Level : Nat → List Token → ParseRes Expression
  | 0, _ => none
  | fuel + 1, toks =>
    match parse4Level fuel toks with
    | none => none
    | some (.error e, toks1) => some (.error e, toks1)
    | some (.ok left, toks1) => chainLoop3 fuel left toks1

/-- The binary tail loop at the multiplicative band. -/
def chainLoop3 : Nat → Expression → List Token → ParseRes Expression
  | 0, _, _ => none
  | fuel + 1, left, toks =>
    match toks.head? with
    | none => some (.ok left, toks)
    | some t =>
      match levelOps3 t with
      | none => some (.ok left, toks)
      | some opStr =>
        match parse4Level fuel toks.tail with
        | none => none
        | some (.error e, toks1) => some (.error e, toks1)
        | some (.ok right, toks1) =>
            chainLoop3 fuel (.BinaryExpression left opStr right) toks1

/-- `Parser::parse_4_level_expression` (primary level): parenthesised
expression, literals, identifier, or call.  `tokens.next()` consumes the
first token even when the arm then fails. -/
def parse4Level : Nat → List Token → ParseRes Expression
  | 0, _ => none
  | fuel + 1, toks =>
    match toks with
    | [] => some (.error "Expected factor", [])
    | .leftParen :: rest =>
      match parseExpression fuel rest with
      | none => none
      | some (.error e, toks1) => some (.error e, toks1)
      | some (.ok e, toks1) =>
        match toks1 with
        | .rightParen :: toks2 => some (.ok e, toks2)
        | _ :: toks2 => some (.error "Expected closing paren", toks2)
        | [] => some (.error "Expected closing paren", [])
    | .literal (.number n) :: rest => some (.ok (.NumberLiteral n), rest)
    | .identifier name :: rest =>
      if rest.head? = some .leftParen then callArgsLoop fuel name [] rest.tail
      else some (.ok (.IdentifierExpression name), rest)
    | .literal (.boolean b) :: rest => some (.ok (.BooleanLiteral b), rest)
    | .literal .nil :: rest => some (.ok .NilLiteral, rest)
    | .literal (.string s) :: rest => some (.ok (.StringLiteral s), rest)
    | _ :: rest => some (.error "Unexpected token", rest)

/-- The `while let Ok(expression) = self.parse_expression(tokens)` loop of
the call arm: a failed argument parse ends the loop (keeping whatever the
failed parse consumed), a comma continues it. -/
def callArgsLoop : Nat → String → List Expression → List Token →
    ParseRes Expression
  | 0, _, _, _ => none
  | fuel + 1, name, args, toks =>
    match parseExpression fuel toks with
    | none => none
    | some (.error _, toks1) => finishCall name args toks1
    | some (.ok e, toks1) =>
      if toks1.head? = some .comma then
        callArgsLoop fuel name (args ++ [e]) toks1.tail
      else finishCall name (args ++ [e]) toks1

end

/-- `Parser::parse_identifier`: `tokens.next()` must be an identifier; the
token is consumed either way. -/
def parseIdentifier : List Token → ParseRes String
  | .identifier id :: rest => some (.ok id, rest)
  | [] => some (.error "Expected identifier", [])
  | _ :: rest => some (.error "Expected identifier", rest)

/-- `Parser::expect`: `tokens.next()` must equal the expected token; the
token is consumed either way (also when the cursor is empty). -/
def expectTok (expected : Token) : List Token → ParseRes Unit
  | [] => some (.error "Expected token", [])
  | t :: rest =>
      if t = expected then some (.ok (), rest)
      else some (.error "Expected token", rest)

/-- `Parser::parse_local_variable_declaration`:
`local <ident> = <expression>`. -/
def parseLocalVariableDeclaration (fuel : Nat) (toks : List Token) :
    ParseRes Statement :=
  match parseIdentifier toks.tail with
  | none => none
  | some (.error e, toks1) => some (.error e, toks1)
  | some (.ok name, toks1) =>
    match expectTok .assigment toks1 with
    | none => none
    | some (.error e, toks2) => some (.error e, toks2)
    | some (.ok _, toks2) =>
      match parseExpression fuel toks2 with
      | none => none
      | some (.error e, toks3) => some (.error e, toks3)
      | some (.ok e, toks3) =>
          some (.ok (.LocalVariableDeclaration name e), toks3)

/-- `Parser::parse_assigment_statement`: `<ident> = <expression>`. -/
def parseAssigmentStatement (fuel : Nat) (toks : List Token) :
    ParseRes Statement :=
  match parseIdentifier toks with
  | none => none
  | some (.error e, toks1) => some (.error e, toks1)
  | some (.ok name, toks1) =>
    match expectTok .assigment toks1 with
    | none => none
    | some (.error e, toks2) => some (.error e, toks2)
    | some (.ok _, toks2) =>
      match parseExpression fuel toks2 with
      | none => none
      | some (.error e, toks3) => some (.error e, toks3)
      | some (.ok e, toks3) => some (.ok (.AssigmentStatement name e), toks3)

mutual

/-- `Parser::parse_single_statement`: dispatch on the peeked token.  The
`Identifier` case clones the cursor to look one token past the identifier
(`future.peek() == Some(&Assigment)`).  The Rust arms for `Function`,
`Return` and `Repeat` refer to token variants that do not exist in
src/lex.rs and are omitted (no token stream can select them); everything
else falls to the `Unexpected top-level token` error. -/
def parseSingleStatement : Nat → List Token → ParseRes Statement
  | 0, _ => none
  | fuel + 1, toks =>
    match toks.head? with
    | some .localKw => parseLocalVariableDeclaration fuel toks
    | some (.identifier _) =>
      if toks.tail.head? = some .assigment then parseAssigmentStatement fuel toks
      else
        match parseExpression fuel toks with
        | none => none
        | some (.error e, toks1) => some (.error e, toks1)
        | some (.ok e, toks1) => some (.ok (.ExpressionStatement e), toks1)
    | some .ifKw => parseIfStatement fuel toks
    | some .whileKw => parseWhileLoop fuel toks
    | some .forKw => parseForLoop fuel toks
    | _ => some (.error "Unexpected top-level token", toks)

/-- `Parser::parse_while_loop`: `while <expr> do <block> end`. -/
def parseWhileLoop : Nat → List Token → ParseRes Statement
  | 0, _ => none
  | fuel + 1, toks =>
    match parseExpression fuel toks.tail with
    | none => none
    | some (.error e, toks1) => some (.error e, toks1)
    | some (.ok cond, toks1) =>
      match expectTok .doKw toks1 with
      | none => none
      | some (.error e, toks2) => some (.error e, toks2)
      | some (.ok _, toks2) =>
        match parseBlockUntil fuel [.endKw] toks2 with
        | none => none
        | some (.error e, toks3) => some (.error e, toks3)
        | some (.ok block, toks3) =>
          match expectTok .endKw toks3 with
          | none => none
          | some (.error e, toks4) => some (.error e, toks4)
          | some (.ok _, toks4) => some (.ok (.WhileLoop cond block), toks4)

/-- `Parser::parse_for_loop`:
`for <ident> = <start> , <end> (, <step>)? do <block> end`; the step
defaults to the literal `1`. -/
def parseForLoop : Nat → List Token → ParseRes Statement
  | 0, _ => none
  | fuel + 1, toks =>
    match parseIdentifier toks.tail with
    | none => none
    | some (.error e, toks1) => some (.error e, toks1)
    | some (.ok iter, toks1) =>
      match expectTok .assigment toks1 with
      | none => none
      | some (.error e, toks2) => some (.error e, toks2)
      | some (.ok _, toks2) =>
        match parseExpression fuel toks2 with
        | none => none
        | some (.error e, toks3) => some (.error e, toks3)
        | some (.ok startE, toks3) =>
          match expectTok .comma toks3 with
          | none => none
          | some (.error e, toks4) => some (.error e, toks4)
          | some (.ok _, toks4) =>
            match parseExpression fuel toks4 with
            | none => none
            | some (.error e, toks5) => some (.error e, toks5)
            | some (.ok endE, toks5) =>
              match parseForStep fuel toks5 with
              | none => none
              | some (.error e, toks6) => some (.error e, toks6)
              | some (.ok stepE, toks6) =>
                match expectTok .doKw toks6 with
                | none => none
                | some (.error e, toks7) => some (.error e, toks7)
                | some (.ok _, toks7) =>
                  match parseBlockUntil fuel [.endKw] toks7 with
                  | none => none
                  | some (.error e, toks8) => some (.error e, toks8)
                  | some (.ok block, toks8) =>
                    match expectTok .endKw toks8 with
                    | none => none
                    | some (.error e, toks9) => some (.error e, toks9)
                    | some (.ok _, toks9) =>
                        some (.ok (.ForLoop iter startE endE stepE block), toks9)

/-- The optional step clause of `parse_for_loop`: if the next token is a
comma, consume it and parse the step expression; otherwise the step is the
number literal 1. -/
def parseForStep : Nat → List Token → ParseRes Expression
  | 0, _ => none
  | fuel + 1, toks =>
    if toks.head? = some .comma then parseExpression fuel toks.tail
    else some (.ok (.NumberLiteral 1), toks)

/-- `Parser::parse_if_statement`:
`if <expr> then <block> (elseif <expr> then <block>)* (else <block>)? end`. -/
def parseIfStatement : Nat → List Token → ParseRes Statement
  | 0, _ => none
  | fuel + 1, toks =>
    match parseExpression fuel toks.tail with
    | none => none
    | some (.error e, toks1) => some (.error e, toks1)
    | some (.ok cond, toks1) =>
      match expectTok .thenKw toks1 with
      | none => none
      | some (.error e, toks2) => some (.error e, toks2)
      | some (.ok _, toks2) =>
        match parseBlockUntil fuel [.endKw, .elseifKw, .elseKw] toks2 with
        | none => none
        | some (.error e, toks3) => some (.error e, toks3)
        | some (.ok mainBlock, toks3) =>
          match parseElseifLoop fuel toks3 with
          | none => none
          | some (.error e, toks4) => some (.error e, toks4)
          | some (.ok elseifs, toks4) =>
            match parseElseClause fuel toks4 with
            | none => none
            | some (.error e, toks5) => some (.error e, toks5)
            | some (.ok elseBlock, toks5) =>
              match expectTok .endKw toks5 with
              | none => none
              | some (.error e, toks6) => some (.error e, toks6)
              | some (.ok _, toks6) =>
                  some (.ok (.IfStatement cond mainBlock elseifs elseBlock), toks6)

/-- The `while let Some(Token::ElseIf) = tokens.peek()` loop of
`parse_if_statement`. -/
def parseElseifLoop : Nat → List Token →
    ParseRes (List (Expression × List Statement))
  | 0, _ => none
  | fuel + 1, toks =>
    if toks.head? = some .elseifKw then
      match parseExpression fuel toks.tail with
      | none => none
      | some (.error e, toks1) => some (.error e, toks1)
      | some (.ok cond, toks1) =>
        match expectTok .thenKw toks1 with
        | none => none
        | some (.error e, toks2) => some (.error e, toks2)
        | some (.ok _, toks2) =>
          match parseBlockUntil fuel [.endKw, .elseifKw, .elseKw] toks2 with
          | none => none
          | some (.error e, toks3) => some (.error e, toks3)
          | some (.ok block, toks3) =>
            match parseElseifLoop fuel toks3 with
            | none => none
            | some (.error e, toks4) => some (.error e, toks4)
            | some (.ok rest, toks4) => some (.ok ((cond, block) :: rest), toks4)
    else some (.ok [], toks)

/-- The optional `else` clause of `parse_if_statement`. -/
def parseElseClause : Nat → List Token → ParseRes (Option (List Statement))
  | 0, _ => none
  | fuel + 1, toks =>
    if toks.head? = some .elseKw then
      match parseBlockUntil fuel [.endKw] toks.tail with
      | none => none
      | some (.error e, toks1) => some (.error e, toks1)
      | some (.ok block, toks1) => some (.ok (some block), toks1)
    else some (.ok none, toks)

/-- `Parser::parse_block_until`: statements until (not consuming) one of
the end tokens or cursor exhaustion. -/
def parseBlockUntil : Nat → List Token → List Token →
    ParseRes (List Statement)
  | 0, _, _ => none
  | fuel + 1, endToks, toks =>
    match toks.head? with
    | none => some (.ok [], toks)
    | some t =>
      if endToks.contains t then some (.ok [], toks)
      else
        match parseSingleStatement fuel toks with
        | none => none
        | some (.error e, toks1) => some (.error e, toks1)
        | some (.ok s, toks1) =>
          match parseBlockUntil fuel endToks toks1 with
          | none => none
          | some (.error e, toks2) => some (.error e, toks2)
          | some (.ok ss, toks2) => some (.ok (s :: ss), toks2)

end

/-- The statement loop of `Parser::parse`: single statements until the
cursor is exhausted. -/
def parseTokens : Nat → List Token → ParseRes (List Statement)
  | 0, _ => none
  | fuel + 1, toks =>
    match toks.head? with
    | none => some (.ok [], toks)
    | some _ =>
      match parseSingleStatement fuel toks with
      | none => none
      | some (.error e, toks1) => some (.error e, toks1)
      | some (.ok s, toks1) =>
        match parseTokens fuel toks1 with
        | none => none
        | some (.error e, toks2) => some (.error e, toks2)
        | some (.ok ss, toks2) => some (.ok (s :: ss), toks2)

/-- `Parser::parse`: tokenize the source, then parse the token vector into
top-level statements. -/
def parseProgram (lexFuel parseFuel : Nat) (src : List Char) :
    Option (Except String (List Statement)) :=
  match tokenize lexFuel src with
  | none => none
  | some (.error e) => some (.error e)
  | some (.ok toks) =>
    match parseTokens parseFuel toks with
    | none => none
    | some (.error e, _) => some (.error e)
    | some (.ok ss, _) => some (.ok ss)

/-! ## Derived definitions used by the proofs -/

/-- Depth of the scope stack (number of frames). -/
def vdepth (vm : VirtualMachine) : Nat := vm.scopes_stack.length

/-! ## Helper lemmas -/

mutual

/-- Expression evaluation never changes the machine (every Rust operation
it performs takes `&self`). -/
theorem execute_vm_eq (e : Expression) (vm : VirtualMachine) :
    (e.execute vm).2 = vm := by
  cases e with
  | NumberLiteral n => rfl
  | BooleanLiteral b => rfl
  | StringLiteral s => rfl
  | NilLiteral => rfl
  | IdentifierExpression id => rfl
  | BinaryExpression lhs op rhs =>
    simp only [Expression.execute]
    rcases h1 : lhs.execute vm with ⟨r1, vm1⟩
    have e1 : vm1 = vm := by have := execute_vm_eq lhs vm; rw [h1] at this; exact this
    cases r1 with
    | error msg => simpa using e1
    | ok lv =>
      dsimp only
      rcases h2 : rhs.execute vm1 with ⟨r2, vm2⟩
      have e2 : vm2 = vm1 := by have := execute_vm_eq rhs vm1; rw [h2] at this; exact this
      cases r2 with
      | error msg => simpa using e2.trans e1
      | ok rv => simpa using e2.trans e1
  | FunctionCall name args =>
    simp only [Expression.execute]
    rcases h1 : execArgs args vm with ⟨r1, vm1⟩
    have e1 : vm1 = vm := by have := execArgs_vm_eq args vm; rw [h1] at this; exact this
    cases r1 with
    | error msg => simpa using e1
    | ok vs =>
      dsimp only
      cases h2 : vm1.lookup_variable name with
      | none => simpa using e1
      | some v => cases v <;> simpa using e1

/-- Argument evaluation never changes the machine. -/
theorem execArgs_vm_eq (es : List Expression) (vm : VirtualMachine) :
    (execArgs es vm).2 = vm := by
  cases es with
  | nil => rfl
  | cons e rest =>
    simp only [execArgs]
    rcases h1 : e.execute vm with ⟨r1, vm1⟩
    have e1 : vm1 = vm := by have := execute_vm_eq e vm; rw [h1] at this; exact this
    cases r1 with
    | error msg => simpa using e1
    | ok v =>
      dsimp only
      rcases h2 : execArgs rest vm1 with ⟨r2, vm2⟩
      have e2 : vm2 = vm1 := by have := execArgs_vm_eq rest vm1; rw [h2] at this; exact this
      cases r2 with
      | error msg => simpa using e2.trans e1
      | ok vs => simpa using e2.trans e1

end

/-- Expression evaluation as a pair whose second component is the unchanged
machine (a rewriting-friendly restatement of `execute_vm_eq`). -/
theorem executePair (e : Expression) (vm : VirtualMachine) :
    e.execute vm = ((e.execute vm).1, vm) := by
  have h := execute_vm_eq e vm
  rcases hE : e.execute vm with ⟨r, vm2⟩
  rw [hE] at h
  simpa using h

/-- Inserting a key makes it retrievable. -/
theorem mapGet_mapInsert_self (name : String) (v : EvalValue) (m : ValueMap) :
    mapGet name (mapInsert name v m) = some v := by
  induction m with
  | nil => simp [mapInsert, mapGet]
  | cons kv rest ih =>
    rcases kv with ⟨k, w⟩
    by_cases hk : k = name
    · simp [mapInsert, hk, mapGet]
    · simp [mapInsert, hk, mapGet, ih]

/-- A key a map does not contain resolves to `none`. -/
theorem mapGet_none_of_not_contains (name : String) (m : ValueMap)
    (h : mapContains name m = false) : mapGet name m = none := by
  rw [mapContains] at h
  cases hg : mapGet name m with
  | none => rfl
  | some v => rw [hg] at h; simp at h

/-- Characterisation of `change_or_create_value` on a non-empty stack:
either some frame contains the name and the innermost such frame (index `i`,
innermost = index 0) is updated with every other frame untouched, or no
frame contains it and the global (last) frame receives the binding. -/
theorem changeOrCreate_spec (name : String) (v : EvalValue)
    (stack : List ValueMap) (hne : stack ≠ []) :
    ((∃ i, i < stack.length ∧ mapContains name (stack.getD i []) = true ∧
        (∀ j, j < i → mapContains name (stack.getD j []) = false) ∧
        changeOrCreate name v stack =
          stack.set i (mapInsert name v (stack.getD i []))) ∨
     ((∀ frame ∈ stack, mapContains name frame = false) ∧
        changeOrCreate name v stack =
          stack.set (stack.length - 1) (mapInsert name v (stack.getLastD [])))) := by
  induction stack with
  | nil => exact absurd rfl hne
  | cons frame rest ih =>
    cases rest with
    | nil =>
      by_cases hc : mapContains name frame
      · exact Or.inl ⟨0, by simp, by simpa using hc, by omega, by simp [changeOrCreate]⟩
      · refine Or.inr ⟨?_, by simp [changeOrCreate]⟩
        intro f hf
        simp only [List.mem_singleton] at hf
        subst hf
        simpa using hc
    | cons next tail =>
      by_cases hc : mapContains name frame
      · refine Or.inl ⟨0, by simp, by simpa using hc, by omega, ?_⟩
        simp [changeOrCreate, hc]
      · have ihr := ih (by simp)
        rcases ihr with ⟨i, hi, hci, hmin, heq⟩ | ⟨hall, heq⟩
        · refine Or.inl ⟨i + 1, by simpa using hi, by simpa using hci, ?_, ?_⟩
          · intro j hj
            cases j with
            | zero => simpa using hc
            | succ j2 => exact hmin j2 (by omega)
          · simp [changeOrCreate, hc, heq]
        · refine Or.inr ⟨?_, ?_⟩
          · intro f hf
            rcases List.mem_cons.mp hf with hf | hf
            · subst hf; simpa using hc
            · exact hall f hf
          · simp only [changeOrCreate, hc, if_false, heq]
            simp [List.getLastD_cons]

/-- `change_or_create_value` never changes the number of frames. -/
theorem changeOrCreate_length (name : String) (v : EvalValue)
    (stack : List ValueMap) :
    (changeOrCreate name v stack).length = stack.length := by
  induction stack with
  | nil => rfl
  | cons frame rest ih =>
    cases rest with
    | nil => rfl
    | cons next tail =>
      by_cases hc : mapContains name frame
      · simp [changeOrCreate, hc]
      · simp only [changeOrCreate, hc, if_false]
        simpa using ih

/-- After `change_or_create_value`, the assigned name resolves to the new
value (on a non-empty stack). -/
theorem lookup_changeOrCreate_self (name : String) (v : EvalValue)
    (stack : List ValueMap) (h : stack ≠ []) :
    lookupStack name (changeOrCreate name v stack) = some v := by
  induction stack with
  | nil => exact absurd rfl h
  | cons frame rest ih =>
    cases rest with
    | nil =>
      simp [changeOrCreate, lookupStack, mapGet_mapInsert_self]
    | cons next tail =>
      by_cases hc : mapContains name frame
      · simp [changeOrCreate, hc, lookupStack, mapGet_mapInsert_self]
      · simp only [changeOrCreate, hc, Bool.false_eq_true, if_false]
        rw [lookupStack, mapGet_none_of_not_contains name frame (by simpa using hc)]
        exact ih (by simp)

/-- `change_or_create_value` keeps the stack non-empty. -/
theorem changeOrCreate_ne_nil (name : String) (v : EvalValue)
    (stack : List ValueMap) (h : stack ≠ []) :
    changeOrCreate name v stack ≠ [] := by
  have := changeOrCreate_length name v stack
  intro hc
  rw [hc] at this
  simp at this
  exact h (List.length_eq_zero.mp this.symm)

/-- Entering a scope adds one frame. -/
theorem depth_enter (vm : VirtualMachine) :
    vdepth vm.enter_scope = vdepth vm + 1 := by
  simp [vdepth, VirtualMachine.enter_scope]

/-- Leaving a scope removes one frame. -/
theorem depth_exit (vm : VirtualMachine) :
    vdepth vm.exit_scope = vdepth vm - 1 := by
  simp [vdepth, VirtualMachine.exit_scope]

/-- Entering a scope and declaring in it adds exactly one frame. -/
theorem depth_enter_declare (vm : VirtualMachine) (iter : String)
    (sv : EvalValue) :
    vdepth (vm.enter_scope.declare_variable iter sv) = vdepth vm + 1 := by
  rcases vm with ⟨stack⟩
  simp [vdepth, VirtualMachine.enter_scope, VirtualMachine.declare_variable]

/-- `change_or_create_value` keeps the depth. -/
theorem depth_changeOrCreate (vm : VirtualMachine) (name : String)
    (v : EvalValue) :
    vdepth (vm.change_or_create_value name v) = vdepth vm := by
  simp [vdepth, VirtualMachine.change_or_create_value, changeOrCreate_length]

/-- Net effect of statement execution on the scope-stack depth: no control
path (normal, taken elseif, or error propagation) ever leaves the stack
SHALLOWER than it started; the elseif / error paths can leave it deeper. -/
theorem depthMonoAll : ∀ fuel : Nat,
    (∀ s vm r vm', execStmt fuel s vm = some (r, vm') →
      vdepth vm ≤ vdepth vm') ∧
    (∀ block vm r vm', execBlock fuel block vm = some (r, vm') →
      vdepth vm ≤ vdepth vm') ∧
    (∀ cond block vm r vm', execWhile fuel cond block vm = some (r, vm') →
      vdepth vm ≤ vdepth vm') ∧
    (∀ iter endE step block vm r vm',
      execForLoop fuel iter endE step block vm = some (r, vm') →
      vdepth vm ≤ vdepth vm') ∧
    (∀ elseifs elseBlock vm r vm',
      execElseifs fuel elseifs elseBlock vm = some (r, vm') →
      vdepth vm - 1 ≤ vdepth vm') := by
  intro fuel
  induction fuel with
  | zero =>
    refine ⟨fun s vm r vm' h => ?_, fun b vm r vm' h => ?_,
      fun c b vm r vm' h => ?_, fun i e st b vm r vm' h => ?_,
      fun es eb vm r vm' h => ?_⟩ <;>
      simp [execStmt, execBlock, execWhile, execForLoop, execElseifs] at h
  | succ fuel ih =>
    obtain ⟨ihS, ihB, ihW, ihF, ihE⟩ := ih
    refine ⟨?_, ?_, ?_, ?_, ?_⟩
    · -- execStmt
      intro s vm r vm' h
      cases s with
      | LocalVariableDeclaration name e =>
        rw [execStmt, executePair] at h
        cases hr : (e.execute vm).1 with
        | error msg => rw [hr] at h; simp at h; simp [h.2.symm, vdepth]
        | ok v =>
          rw [hr] at h; simp at h
          rcases vm with ⟨stack⟩
          cases stack with
          | nil => simp [← h.2, VirtualMachine.declare_variable, vdepth]
          | cons f rest => simp [← h.2, VirtualMachine.declare_variable, vdepth]
      | AssigmentStatement name e =>
        rw [execStmt, executePair] at h
        cases hr : (e.execute vm).1 with
        | error msg => rw [hr] at h; simp at h; simp [h.2.symm, vdepth]
        | ok v =>
          rw [hr] at h; simp at h
          rw [← h.2]
          simp [depth_changeOrCreate]
      | ExpressionStatement e =>
        rw [execStmt, executePair] at h
        cases hr : (e.execute vm).1 with
        | error msg => rw [hr] at h; simp at h; simp [h.2.symm, vdepth]
        | ok v => rw [hr] at h; simp at h; simp [h.2.symm, vdepth]
      | WhileLoop cond block =>
        rw [execStmt] at h
        cases hw : execWhile fuel cond block vm.enter_scope with
        | none => rw [hw] at h; simp at h
        | some p =>
          rcases p with ⟨rw1, vm1⟩
          have hle := ihW cond block vm.enter_scope rw1 vm1 hw
          rw [depth_enter] at hle
          rw [hw] at h
          cases rw1 with
          | error msg => simp at h; rw [← h.2]; omega
          | ok u =>
            simp at h
            rw [← h.2, depth_exit]
            omega
      | ForLoop iter startE endE stepE block =>
        rw [execStmt, executePair] at h
        cases hs : (startE.execute vm.enter_scope).1 with
        | error msg =>
          rw [hs] at h; simp at h
          rw [← h.2, depth_enter]
          omega
        | ok sv =>
          rw [hs] at h
          dsimp only at h
          rw [executePair] at h
          cases hst : (stepE.execute (vm.enter_scope.declare_variable iter sv)).1 with
          | error msg =>
            rw [hst] at h; simp at h
            rw [← h.2, depth_enter_declare]
            omega
          | ok stv =>
            rw [hst] at h
            cases stv with
            | Number stepn =>
              dsimp only at h
              cases hf : execForLoop fuel iter endE stepn block
                  (vm.enter_scope.declare_variable iter sv) with
              | none => rw [hf] at h; simp at h
              | some p =>
                rcases p with ⟨rf, vmf⟩
                have hle := ihF iter endE stepn block _ rf vmf hf
                rw [depth_enter_declare] at hle
                rw [hf] at h
                cases rf with
                | error msg => simp at h; rw [← h.2]; omega
                | ok u =>
                  simp at h
                  rw [← h.2, depth_exit]
                  omega
            | Boolean b =>
              dsimp only at h; simp at h
              rw [← h.2, depth_enter_declare]; omega
            | String s =>
              dsimp only at h; simp at h
              rw [← h.2, depth_enter_declare]; omega
            | Nil =>
              dsimp only at h; simp at h
              rw [← h.2, depth_enter_declare]; omega
            | NativeFunction f =>
              dsimp only at h; simp at h
              rw [← h.2, depth_enter_declare]; omega
      | IfStatement cond block elseifs elseBlock =>
        rw [execStmt, executePair] at h
        cases hc : (cond.execute vm.enter_scope).1 with
        | error msg =>
          rw [hc] at h; simp at h
          rw [← h.2, depth_enter]
          omega
        | ok cv =>
          rw [hc] at h
          dsimp only at h
          by_cases ht : cv.is_true
          · rw [if_pos ht] at h
            cases hb : execBlock fuel block vm.enter_scope with
            | none => rw [hb] at h; simp at h
            | some p =>
              rcases p with ⟨rb, vmb⟩
              have hle := ihB block vm.enter_scope rb vmb hb
              rw [depth_enter] at hle
              rw [hb] at h
              cases rb with
              | error msg => simp at h; rw [← h.2]; omega
              | ok u =>
                simp at h
                rw [← h.2, depth_exit]
                omega
          · rw [if_neg ht] at h
            have hle := ihE elseifs elseBlock vm.enter_scope r vm' h
            rw [depth_enter] at hle
            omega
    · -- execBlock
      intro block vm r vm' h
      cases block with
      | nil => rw [execBlock] at h; simp at h; simp [h.2.symm]
      | cons s rest =>
        rw [execBlock] at h
        cases hs : execStmt fuel s vm with
        | none => rw [hs] at h; simp at h
        | some p =>
          rcases p with ⟨rs, vms⟩
          have hle := ihS s vm rs vms hs
          rw [hs] at h
          cases rs with
          | error msg => simp at h; rw [← h.2]; exact hle
          | ok u =>
            simp at h
            have hle2 := ihB rest vms r vm' h
            omega
    · -- execWhile
      intro cond block vm r vm' h
      rw [execWhile, executePair] at h
      cases hc : (cond.execute vm).1 with
      | error msg => rw [hc] at h; simp at h; simp [h.2.symm]
      | ok cv =>
        rw [hc] at h
        dsimp only at h
        by_cases ht : cv.is_true
        · rw [if_pos ht] at h
          cases hb : execBlock fuel block vm with
          | none => rw [hb] at h; simp at h
          | some p =>
            rcases p with ⟨rb, vmb⟩
            have hle := ihB block vm rb vmb hb
            rw [hb] at h
            cases rb with
            | error msg => simp at h; rw [← h.2]; exact hle
            | ok u =>
              simp at h
              have hle2 := ihW cond block vmb r vm' h
              omega
        · rw [if_neg ht] at h; simp at h; simp [h.2.symm]
    · -- execForLoop
      intro iter endE step block vm r vm' h
      rw [execForLoop] at h
      cases hl : vm.lookup_variable iter with
      | none => rw [hl] at h; simp at h; simp [h.2.symm]
      | some iterV =>
        rw [hl] at h
        dsimp only at h
        rw [executePair] at h
        cases he : (endE.execute vm).1 with
        | error msg => rw [he] at h; simp at h; simp [h.2.symm]
        | ok endV =>
          rw [he] at h
          dsimp only at h
          by_cases hle : evalLe iterV endV
          · rw [if_pos hle] at h
            cases hb : execBlock fuel block vm with
            | none => rw [hb] at h; simp at h
            | some p =>
              rcases p with ⟨rb, vmb⟩
              have hble := ihB block vm rb vmb hb
              rw [hb] at h
              cases rb with
              | error msg => simp at h; rw [← h.2]; exact hble
              | ok u =>
                simp at h
                cases hl2 : vmb.lookup_variable iter with
                | none => rw [hl2] at h; simp at h; rw [← h.2]; exact hble
                | some w =>
                  rw [hl2] at h
                  cases w with
                  | Number n =>
                    dsimp only at h
                    have hrec := ihF iter endE step block
                      (vmb.change_or_create_value iter (.Number (n + step))) r vm' h
                    rw [depth_changeOrCreate] at hrec
                    omega
                  | Boolean b => simp at h; rw [← h.2]; exact hble
                  | String s => simp at h; rw [← h.2]; exact hble
                  | Nil => simp at h; rw [← h.2]; exact hble
                  | NativeFunction f => simp at h; rw [← h.2]; exact hble
          · rw [if_neg hle] at h; simp at h; simp [h.2.symm]
    · -- execElseifs
      intro elseifs elseBlock vm r vm' h
      cases elseifs with
      | nil =>
        cases elseBlock with
        | none =>
          rw [execElseifs] at h
          simp at h
          rw [← h.2, depth_exit]
        | some block =>
          rw [execElseifs] at h
          cases hb : execBlock fuel block vm with
          | none => rw [hb] at h; simp at h
          | some p =>
            rcases p with ⟨rb, vmb⟩
            have hle := ihB block vm rb vmb hb
            rw [hb] at h
            cases rb with
            | error msg => simp at h; rw [← h.2]; omega
            | ok u =>
              simp at h
              rw [← h.2, depth_exit]
              omega
      | cons pair rest =>
        rcases pair with ⟨cond, block⟩
        rw [execElseifs, executePair] at h
        cases hc : (cond.execute vm).1 with
        | error msg => rw [hc] at h; simp at h; rw [← h.2]; omega
        | ok cv =>
          rw [hc] at h
          dsimp only at h
          by_cases ht : cv.is_true
          · rw [if_pos ht] at h
            cases hb : execBlock fuel block vm with
            | none => rw [hb] at h; simp at h
            | some p =>
              rcases p with ⟨rb, vmb⟩
              have hle := ihB block vm rb vmb hb
              rw [hb] at h
              cases rb with
              | error msg => simp at h; rw [← h.2]; omega
              | ok u => simp at h; rw [← h.2]; omega
          · rw [if_neg ht] at h
            exact ihE rest elseBlock vm r vm' h

/-- A predicate-true run is consumed whole, leaving nothing. -/
theorem consumeWhile_all (p : Char → Bool) (l : List Char)
    (h : ∀ c ∈ l, p c = true) : consumeWhile p l = (l, []) := by
  induction l with
  | nil => rfl
  | cons c rest ih =>
    simp only [consumeWhile, h c (List.mem_cons_self c rest),
      ih (fun x hx => h x (List.mem_cons_of_mem c hx)), if_true]

/-- The for-loop of `Statement::execute` never terminates once its iterator
is a `Number`, its end expression is the string literal `"x"` and its body
is empty: the derived cross-variant `<=` keeps answering true. -/
theorem forLoop_nonterm : ∀ (fuel : Nat) (vm : VirtualMachine),
    vm.scopes_stack ≠ [] →
    (∃ k : ℚ, vm.lookup_variable "i" = some (.Number k)) →
    execForLoop fuel "i" (.StringLiteral "x") 1 [] vm = none := by
  intro fuel
  induction fuel with
  | zero => intro vm _ _; rfl
  | succ fuel ih =>
    intro vm hne hk
    rcases hk with ⟨k, hk⟩
    rw [execForLoop, hk]
    show (if evalLe (.Number k) (.String "x") then _ else _) = none
    rw [show evalLe (.Number k) (.String "x") = true from rfl, if_pos rfl]
    cases fuel with
    | zero => rfl
    | succ fuel2 =>
      rw [show execBlock (fuel2 + 1) [] vm = some (.ok (), vm) from rfl]
      dsimp only
      rw [hk]
      dsimp only
      apply ih
      · simp only [VirtualMachine.change_or_create_value]
        exact changeOrCreate_ne_nil _ _ _ hne
      · exact ⟨k + 1, lookup_changeOrCreate_self _ _ _ hne⟩

/-! ## Claim C1 — truthiness -/

/-- Claim C1: the claim states Lua truthiness (everything is true except
`Nil` and `Boolean(false)`), but `EvalValue::is_true` in src/ast.rs returns
true exactly for `Nil` and `Boolean(true)`: `Nil` comes out TRUE while
`Number(0)`, `String("")`, any non-empty string and every other non-boolean
value come out FALSE.  Only the two `Boolean` rows of the truthiness table
agree with the claim. -/
theorem truthiness_is_inverted :
    EvalValue.is_true .Nil = true ∧
    EvalValue.is_true (.Boolean false) = false ∧
    EvalValue.is_true (.Boolean true) = true ∧
    EvalValue.is_true (.Number 0) = false ∧
    EvalValue.is_true (.Number 1) = false ∧
    EvalValue.is_true (.String "") = false ∧
    EvalValue.is_true (.String "abc") = false :=
  ⟨rfl, rfl, rfl, rfl, rfl, rfl, rfl⟩

/-! ## Claim C2 — scope-stack balance -/

/-- Claim C2, counterexample: executing
`if false then  elseif true then  end` from a one-frame machine completes
with `Ok` but leaves TWO frames — the taken elseif branch returns without
`exit_scope`, so the depth after execution differs from the depth before. -/
theorem ifstatement_elseif_leaks_scope_frame :
    execStmt 5 (.IfStatement (.BooleanLiteral false) []
        [(.BooleanLiteral true, [])] none) (VirtualMachine.mk [[]])
      = some (.ok (), VirtualMachine.mk [[], []]) ∧
    (VirtualMachine.mk [[], []]).scopes_stack.length ≠
      (VirtualMachine.mk [[]]).scopes_stack.length :=
  ⟨rfl, by simp⟩

/-- Claim C2 (amended): scope pushes and pops are NOT matched on every
control path (a taken elseif branch and error propagation both skip
`exit_scope`); what does hold on every path, `Ok` or `Err`, is that
`Statement::execute` never leaves the scope stack shallower than it
started. -/
theorem statement_execute_depth_monotone (fuel : Nat) (s : Statement)
    (vm : VirtualMachine) (r : Except String Unit) (vm2 : VirtualMachine)
    (h : execStmt fuel s vm = some (r, vm2)) :
    vm.scopes_stack.length ≤ vm2.scopes_stack.length :=
  (depthMonoAll fuel).1 s vm r vm2 h

/-- Claim C2, witness for `statement_execute_depth_monotone` at a concrete
statement and machine. -/
theorem statement_execute_depth_monotone_witness :
    execStmt 1 (.ExpressionStatement .NilLiteral) (VirtualMachine.mk [[]])
      = some (.ok (), VirtualMachine.mk [[]]) ∧
    (VirtualMachine.mk [[]]).scopes_stack.length ≤
      (VirtualMachine.mk [[]]).scopes_stack.length :=
  ⟨rfl, statement_execute_depth_monotone 1 (.ExpressionStatement .NilLiteral)
    (VirtualMachine.mk [[]]) (.ok ()) (VirtualMachine.mk [[]]) rfl⟩

/-! ## Claim C3 — string concatenation -/

/-- Claim C3: no precedence band of the parser consumes the `Concatanation`
token, so `e1 .. e2` never produces a `BinaryExpression` — the expression
parser stops after `e1`, and the spec scenario
`local s = "hi" .. " " .. "there"  print(s)` is rejected with an
`Unexpected top-level token` diagnostic at the first `..`.  The lexer does
emit the token and the evaluator does implement `".."` on strings; only the
parser wiring is missing. -/
theorem concat_never_parses :
    parseProgram 60 30
      (String.toList "local s = \"hi\" .. \" \" .. \"there\"  print(s)")
      = some (.error "Unexpected top-level token") ∧
    parseExpression 10
      [.literal (.string "hi"), .concatanation, .literal (.string "there")]
      = some (.ok (.StringLiteral "hi"),
          [.concatanation, .literal (.string "there")]) ∧
    evalBinOp (.String "hi") ".." (.String " ") = .ok (.String "hi ") :=
  ⟨rfl, rfl, rfl⟩

/-! ## Claim C4 — tolerant call-argument parsing -/

/-- Claim C4: the argument loop does stop when an argument expression fails
to parse, but the failed parse has already CONSUMED the closing `)`
(`parse_4_level_expression` always `next()`s its first token), so the
subsequent `)` check fails: the zero-argument call `print()` does NOT parse
into `FunctionCall("print", [])` — it is rejected with the
missing-closing-paren diagnostic, while a one-argument call parses fine. -/
theorem zero_arg_call_fails_to_parse :
    parseSingleStatement 10 [.identifier "print", .leftParen, .rightParen]
      = some (.error "Expected closing paren", []) ∧
    parse4Level 10
      [.identifier "print", .leftParen, .literal (.number 1), .rightParen]
      = some (.ok (.FunctionCall "print" [.NumberLiteral 1]), []) :=
  ⟨rfl, rfl⟩

/-! ## Claim C5 — single-character tokens -/

/-- Claim C5, counterexample: an input containing `{` does not tokenize —
the scan loop has no brace arm (and the `Token` enum has no brace or
bracket variants), so tokenization fails with the unexpected-character
diagnostic instead of succeeding. -/
theorem brace_is_lex_error :
    tokenize 10 (String.toList "a \x7b b")
      = some (.error "Unexpected character") :=
  rfl

/-- Claim C5 (amended): of the listed characters only `+ * / ( ) ,` lex to
one-character tokens; `{`, `}`, `[` and `]` hit the catch-all arm and abort
tokenization with the unexpected-character diagnostic. -/
theorem single_char_token_table :
    tokenize 3 ['+'] = some (.ok [.plus]) ∧
    tokenize 3 ['*'] = some (.ok [.asterisk]) ∧
    tokenize 3 ['/'] = some (.ok [.slash]) ∧
    tokenize 3 ['('] = some (.ok [.leftParen]) ∧
    tokenize 3 [')'] = some (.ok [.rightParen]) ∧
    tokenize 3 [','] = some (.ok [.comma]) ∧
    tokenize 3 ['\x7b'] = some (.error "Unexpected character") ∧
    tokenize 3 ['\x7d'] = some (.error "Unexpected character") ∧
    tokenize 3 ['['] = some (.error "Unexpected character") ∧
    tokenize 3 [']'] = some (.error "Unexpected character") :=
  ⟨rfl, rfl, rfl, rfl, rfl, rfl, rfl, rfl, rfl, rfl⟩

/-! ## Claim C6 — unterminated string -/

/-- Claim C6, counterexample: the input `"abc` reaches end of input inside
a double-quoted string, yet tokenization SUCCEEDS (yielding the rest of the
input as a string literal) instead of failing with a diagnostic. -/
theorem unterminated_string_accepted :
    tokenize 5 (String.toList "\"abc")
      = some (.ok [.literal (.string "abc")]) :=
  rfl

/-- Claim C6 (amended): an opening `"` with no closing `"` is consumed
silently — the string arm takes everything up to end of input as the
literal body and tokenization succeeds; no unterminated-string diagnostic
exists in the lexer. -/
theorem unterminated_string_tokenizes (body : List Char)
    (h : ∀ c ∈ body, c ≠ '"') :
    tokenize 2 ('"' :: body)
      = some (.ok [.literal (.string (String.mk body))]) := by
  have h1 : consumeWhile (fun d => decide (d ≠ '"')) body = (body, []) :=
    consumeWhile_all _ _ (fun c hc => by simpa using h c hc)
  calc tokenize 2 ('"' :: body)
      = tokenizeLoop 1 ((consumeWhile (fun d => decide (d ≠ '"')) body).2.tail)
          [.literal (.string
            (String.mk (consumeWhile (fun d => decide (d ≠ '"')) body).1))] := rfl
    _ = some (.ok [.literal (.string (String.mk body))]) := by rw [h1]; rfl

/-- Claim C6, witness for `unterminated_string_tokenizes` on the concrete
unterminated input `"hi`. -/
theorem unterminated_string_tokenizes_witness :
    (∀ c ∈ ['h', 'i'], c ≠ '"') ∧
    tokenize 2 ('"' :: ['h', 'i'])
      = some (.ok [.literal (.string (String.mk ['h', 'i']))]) :=
  ⟨by decide, unterminated_string_tokenizes ['h', 'i'] (by decide)⟩

/-! ## Claim C7 — operator precedence -/

/-- Claim C7: for all number literals a, b, c the parser gives `*` and `/`
a tighter binding than `+` and `-`, which bind tighter than comparisons,
and chains operators of one band to the left: `a + b * c` parses as
`Binary(a, +, Binary(b, *, c))`, `a + b - c` as
`Binary(Binary(a, +, b), -, c)`, `a * b / c` as
`Binary(Binary(a, *, b), /, c)`, `a < b + c` as
`Binary(a, <, Binary(b, +, c))` and `a < b <= c` as
`Binary(Binary(a, <, b), <=, c)`. -/
theorem operator_precedence_parse (a b c : ℚ) :
    (parseExpression 10 [.literal (.number a), .plus, .literal (.number b),
        .asterisk, .literal (.number c)]
      = some (.ok (.BinaryExpression (.NumberLiteral a) "+"
          (.BinaryExpression (.NumberLiteral b) "*" (.NumberLiteral c))), [])) ∧
    (parseExpression 10 [.literal (.number a), .plus, .literal (.number b),
        .minus, .literal (.number c)]
      = some (.ok (.BinaryExpression
          (.BinaryExpression (.NumberLiteral a) "+" (.NumberLiteral b)) "-"
          (.NumberLiteral c)), [])) ∧
    (parseExpression 10 [.literal (.number a), .asterisk, .literal (.number b),
        .slash, .literal (.number c)]
      = some (.ok (.BinaryExpression
          (.BinaryExpression (.NumberLiteral a) "*" (.NumberLiteral b)) "/"
          (.NumberLiteral c)), [])) ∧
    (parseExpression 10 [.literal (.number a), .lessThan, .literal (.number b),
        .plus, .literal (.number c)]
      = some (.ok (.BinaryExpression (.NumberLiteral a) "<"
          (.BinaryExpression (.NumberLiteral b) "+" (.NumberLiteral c))), [])) ∧
    (parseExpression 10 [.literal (.number a), .lessThan, .literal (.number b),
        .lessThanOrEqual, .literal (.number c)]
      = some (.ok (.BinaryExpression
          (.BinaryExpression (.NumberLiteral a) "<" (.NumberLiteral b)) "<="
          (.NumberLiteral c)), [])) :=
  ⟨rfl, rfl, rfl, rfl, rfl⟩

/-! ## Claim C8 — assignment semantics -/

/-- Claim C8: when an assignment statement executes successfully, the
assigned value lands in the innermost frame that already contains the name
(index 0 is the innermost frame here, so the minimal such index), or — when
no frame contains it — in the global (last) frame; `List.set` at that one
index leaves every other frame exactly as it was. -/
theorem assignment_updates_nearest_scope (fuel : Nat) (name : String)
    (e : Expression) (vm vm2 : VirtualMachine)
    (hne : vm.scopes_stack ≠ [])
    (h : execStmt (fuel + 1) (.AssigmentStatement name e) vm
      = some (.ok (), vm2)) :
    ∃ v, (e.execute vm).1 = .ok v ∧
      ((∃ i, i < vm.scopes_stack.length ∧
          mapContains name (vm.scopes_stack.getD i []) = true ∧
          (∀ j, j < i → mapContains name (vm.scopes_stack.getD j []) = false) ∧
          vm2.scopes_stack = vm.scopes_stack.set i
            (mapInsert name v (vm.scopes_stack.getD i []))) ∨
       ((∀ frame ∈ vm.scopes_stack, mapContains name frame = false) ∧
          vm2.scopes_stack = vm.scopes_stack.set (vm.scopes_stack.length - 1)
            (mapInsert name v (vm.scopes_stack.getLastD [])))) := by
  rw [execStmt, executePair] at h
  cases hr : (e.execute vm).1 with
  | error msg => rw [hr] at h; simp at h
  | ok v =>
    rw [hr] at h
    simp at h
    refine ⟨v, rfl, ?_⟩
    have hspec := changeOrCreate_spec name v vm.scopes_stack hne
    have hstk : vm2.scopes_stack = changeOrCreate name v vm.scopes_stack := by
      rw [← h]
      rfl
    rw [hstk]
    exact hspec

/-- Claim C8, witness for `assignment_updates_nearest_scope`: assigning
`x = 5` with `x` bound only in the global frame updates the global frame
and leaves the inner frame untouched. -/
theorem assignment_updates_nearest_scope_witness :
    (VirtualMachine.mk [[("y", .Number 1)], [("x", .Number 2)]]).scopes_stack ≠ [] ∧
    execStmt 1 (.AssigmentStatement "x" (.NumberLiteral 5))
      (VirtualMachine.mk [[("y", .Number 1)], [("x", .Number 2)]])
      = some (.ok (), VirtualMachine.mk [[("y", .Number 1)], [("x", .Number 5)]]) ∧
    (∃ v, ((Expression.NumberLiteral 5).execute
        (VirtualMachine.mk [[("y", .Number 1)], [("x", .Number 2)]])).1 = .ok v ∧
      ((∃ i, i < 2 ∧
          mapContains "x"
            ([[("y", EvalValue.Number 1)], [("x", EvalValue.Number 2)]].getD i [])
            = true ∧
          (∀ j, j < i → mapContains "x"
            ([[("y", EvalValue.Number 1)], [("x", EvalValue.Number 2)]].getD j [])
            = false) ∧
          [[("y", EvalValue.Number 1)], [("x", EvalValue.Number 5)]] =
            [[("y", EvalValue.Number 1)], [("x", EvalValue.Number 2)]].set i
              (mapInsert "x" v
                ([[("y", EvalValue.Number 1)], [("x", EvalValue.Number 2)]].getD i []))) ∨
       ((∀ frame ∈ [[("y", EvalValue.Number 1)], [("x", EvalValue.Number 2)]],
            mapContains "x" frame = false) ∧
          [[("y", EvalValue.Number 1)], [("x", EvalValue.Number 5)]] =
            [[("y", EvalValue.Number 1)], [("x", EvalValue.Number 2)]].set 1
              (mapInsert "x" v
                ([[("y", EvalValue.Number 1)], [("x", EvalValue.Number 2)]].getLastD []))))) := by
  refine ⟨by simp, rfl, ?_⟩
  exact assignment_updates_nearest_scope 0 "x" (.NumberLiteral 5) _ _ (by simp) rfl

/-! ## Claim C9 — expression evaluation is read-only -/

/-- Claim C9: `Expression::execute` leaves the machine exactly as it found
it — same frames, same bindings — on the success path and the error path
alike, for literals, identifiers, binary expressions and calls into the
`print` native. -/
theorem expression_execute_readonly (e : Expression) (vm : VirtualMachine) :
    (e.execute vm).2 = vm :=
  execute_vm_eq e vm

/-! ## Claim C10 — numeric-for with a non-number bound -/

/-- Claim C10, counterexample: in `for i = 1, "x" do 1 + "a" end` the
cross-variant comparison `Number(1) <= String("x")` is TRUE (the derived
`PartialOrd` orders distinct variants by declaration order, and `Number` is
declared first), so the body runs and its diagnostic aborts the loop — the
statement neither skips the body nor completes with `Ok`. -/
theorem forloop_nonnumber_bound_runs_body :
    evalLe (.Number 1) (.String "x") = true ∧
    execStmt 10 (.ForLoop "i" (.NumberLiteral 1) (.StringLiteral "x")
        (.NumberLiteral 1)
        [.ExpressionStatement (.BinaryExpression (.NumberLiteral 1) "+"
          (.StringLiteral "a"))]) (VirtualMachine.mk [[]])
      = some (.error "Invalid expression",
          VirtualMachine.mk [[("i", .Number 1)], []]) :=
  ⟨rfl, rfl⟩

/-- Claim C10 (amended): the derived cross-variant `<=` answers true for
`Number` against ANY non-`Number` value (variant declaration order), so a
for-loop whose start and step are numbers and whose end evaluates to a
non-number runs its body at least once; with an empty body it never
completes at all (no fuel suffices), rather than terminating silently with
`Ok`. -/
theorem forloop_nonnumber_bound_spins :
    (∀ (k : ℚ) (v : EvalValue), v.isNumber = false →
      evalLe (.Number k) v = true) ∧
    (∀ fuel : Nat, execStmt fuel
      (.ForLoop "i" (.NumberLiteral 1) (.StringLiteral "x")
        (.NumberLiteral 1) []) (VirtualMachine.mk [[]]) = none) := by
  constructor
  · intro k v hv
    cases v with
    | Number q => simp [EvalValue.isNumber] at hv
    | Boolean b => rfl
    | String s => rfl
    | Nil => rfl
    | NativeFunction f => rfl
  · intro fuel
    cases fuel with
    | zero => rfl
    | succ f =>
      have hsetup : execStmt (f + 1)
          (.ForLoop "i" (.NumberLiteral 1) (.StringLiteral "x")
            (.NumberLiteral 1) []) (VirtualMachine.mk [[]])
          = match execForLoop f "i" (.StringLiteral "x") 1 []
              (VirtualMachine.mk [[("i", .Number 1)], []]) with
            | none => none
            | some (.error msg, vm5) => some (.error msg, vm5)
            | some (.ok _, vm5) => some (.ok (), vm5.exit_scope) := rfl
      rw [hsetup, forLoop_nonterm f
        (VirtualMachine.mk [[("i", .Number 1)], []]) (by simp) ⟨1, rfl⟩]

/-- Claim C10, witness for `forloop_nonnumber_bound_spins` at a concrete
non-number value and fuel. -/
theorem forloop_nonnumber_bound_spins_witness :
    EvalValue.isNumber (.String "q") = false ∧
    evalLe (.Number 7) (.String "q") = true ∧
    execStmt 3 (.ForLoop "i" (.NumberLiteral 1) (.StringLiteral "x")
      (.NumberLiteral 1) []) (VirtualMachine.mk [[]]) = none :=
  ⟨rfl, forloop_nonnumber_bound_spins.1 7 (.String "q") rfl,
    forloop_nonnumber_bound_spins.2 3⟩
